import Mathlib

/-
Verification development for the sequence-to-sequence trainer of this
repository (training/ss_transformer_trainer.py, class Seq2SeqTrainer).

Shallow embedding conventions:
- Tensors are flat lists of rationals (token-id tensors are lists of lists
  of integers); device placement (tensor.to(device)) is the identity and is
  not modelled.
- Python dicts that hold configuration group specifications are embedded as
  insertion-ordered association lists; dict.pop removes the key and returns
  its value, dict assignment replaces in place or appends.
- The model forward pass, the optimizer step and the text-generation and
  metric helpers are black boxes supplied as function parameters.
- Fallible code (KeyError, ZeroDivisionError, UnboundLocalError) is
  embedded with Except; an error raised by the eval return statement after
  the side effects happened is recorded in a retval field.
-/

/-- Values stored in a configuration group-spec dict. -/
inductive GVal where
  | num (q : ℚ)
  | nat (n : ℕ)
  | strs (l : List String)
  deriving DecidableEq, Repr, Inhabited

/-- A Python dict embedded as an insertion-ordered association list. -/
abbrev GDict := List (String × GVal)

/-- Embeds dict.pop(k): the value at k together with the dict without k,
or none when the key is missing (Python raises KeyError). -/
def GDict.pop (d : GDict) (k : String) : Option (GVal × GDict) :=
  match d.lookup k with
  | some v => some (v, d.filter (fun kv => kv.1 != k))
  | none => none

/-- Embeds dict assignment d[k] = v: replace in place when k is present,
append otherwise (Python dicts keep insertion order). -/
def GDict.set (d : GDict) (k : String) (v : GVal) : GDict :=
  match d.lookup k with
  | some _ => d.map (fun kv => if kv.1 = k then (k, v) else kv)
  | none => d ++ [(k, v)]

/-- Embeds the Python substring test sub in s. -/
def pyIn (sub s : String) : Bool :=
  decide (List.IsInfix sub.toList s.toList)

/-- A model parameter tensor, flattened to its entries. -/
abbrev Tensor := List ℚ

/-- The model as the trainer sees it: named_parameters() in order.
PyTorch yields pairwise distinct names and pairwise distinct tensor
objects; theorems take those facts as explicit hypotheses. -/
structure Model where
  named_parameters : List (String × Tensor)
  deriving DecidableEq, Repr, Inhabited

/-- Embeds model.parameters(): the tensors of named_parameters in order. -/
def Model.parameters (m : Model) : List Tensor :=
  m.named_parameters.map Prod.snd

/-- Source line 63: no_decay = ["bias", "LayerNorm.weight"]. -/
def no_decay : List String := ["bias", "LayerNorm.weight"]

/-- Embeds any(nd in n for nd in no_decay). -/
def anyNoDecay (n : String) : Bool :=
  no_decay.any (fun nd => pyIn nd n)

/-- One entry of optimizer_grouped_parameters: the dict minus its params
key, together with the parameter tensors assigned to the group. -/
structure ParamGroup where
  spec : GDict
  params : List Tensor
  deriving DecidableEq, Repr, Inhabited

/-- The params name list of a custom parameter group spec, when the dict
has a params key holding a list of names. -/
def paramNamesOf (g : GDict) : Option (List String) :=
  match g.lookup "params" with
  | some (GVal.strs l) => some l
  | _ => none

/-- The layer index of a custom layer group spec, when the dict has a
layer key holding an integer. -/
def layerIdxOf (g : GDict) : Option ℕ :=
  match g.lookup "layer" with
  | some (GVal.nat k) => some k
  | _ => none

/-- Source lines 67-72: the loop over args.custom_parameter_groups.
Pops params from each group dict (KeyError when absent), accumulates the
popped names into custom_parameter_names (the claimed list), and builds
one group per spec holding the named tensors of the model. Also returns
the group dicts as the loop leaves them stored in the configuration. -/
def customGroupsPhase (model : Model) :
    List GDict → List String → Except String (List ParamGroup × List String × List GDict)
  | [], claimed => Except.ok ([], claimed, [])
  | g :: rest, claimed =>
    match g.pop "params" with
    | none => Except.error "KeyError: params"
    | some (GVal.strs ps, gRest) =>
      match customGroupsPhase model rest (claimed ++ ps) with
      | Except.error e => Except.error e
      | Except.ok (gs, cl, ds) =>
        Except.ok
          ({ spec := gRest,
             params := (model.named_parameters.filter (fun np => ps.contains np.1)).map Prod.snd }
            :: gs, cl, gRest :: ds)
    | some _ => Except.error "TypeError: params"

/-- Source lines 82-88: one scan of named_parameters for a single layer
group, splitting unclaimed parameters whose name contains the layer marker
into the decayed and the non-decayed lists while adding their names to
custom_parameter_names. -/
def splitLayerParams (layer : String) :
    List String → List (String × Tensor) → List Tensor × List Tensor × List String
  | claimed, [] => ([], [], claimed)
  | claimed, (n, p) :: rest =>
    if claimed.contains n = false ∧ pyIn layer n = true then
      let r := splitLayerParams layer (claimed ++ [n]) rest
      if anyNoDecay n then (r.1, p :: r.2.1, r.2.2) else (p :: r.1, r.2.1, r.2.2)
    else
      splitLayerParams layer claimed rest

/-- Source lines 74-93: the loop over args.custom_layer_parameters. Pops
the layer index (KeyError when absent), builds the decayed group and the
non-decayed group (weight_decay overridden to 0) for the marker
layer.{index}., and appends both. Also returns the popped dicts as stored
back in the configuration. -/
def layerGroupsPhase (model : Model) :
    List GDict → List String → Except String (List ParamGroup × List String × List GDict)
  | [], claimed => Except.ok ([], claimed, [])
  | g :: rest, claimed =>
    match g.pop "layer" with
    | none => Except.error "KeyError: layer"
    | some (GVal.nat layer_number, gRest) =>
      let layer := "layer." ++ toString layer_number ++ "."
      let group_d := gRest
      let group_nd := gRest.set "weight_decay" (GVal.num 0)
      let s := splitLayerParams layer claimed model.named_parameters
      match layerGroupsPhase model rest s.2.2 with
      | Except.error e => Except.error e
      | Except.ok (gs, cl, ds) =>
        Except.ok
          ({ spec := group_d, params := s.1 } :: { spec := group_nd, params := s.2.1 } :: gs,
            cl, gRest :: ds)
    | some _ => Except.error "TypeError: layer"

/-- Source lines 95-115: the two catch-all groups added unless
train_custom_parameters_only: the decayed group (configured weight_decay)
and the non-decayed group (weight_decay 0), over parameters not claimed by
the custom phases. -/
def catchAllGroups (args_weight_decay : ℚ) (model : Model) (claimed : List String) :
    List ParamGroup :=
  [ { spec := [("weight_decay", GVal.num args_weight_decay)],
      params := (model.named_parameters.filter
        (fun np => claimed.contains np.1 = false ∧ anyNoDecay np.1 = false)).map Prod.snd },
    { spec := [("weight_decay", GVal.num 0)],
      params := (model.named_parameters.filter
        (fun np => claimed.contains np.1 = false ∧ anyNoDecay np.1 = true)).map Prod.snd } ]

/-- The training configuration record (the fields of args the trainer
reads or writes). warmup_steps is an integer because math.ceil yields an
int; Python floats are idealized as rationals. -/
structure Args where
  custom_parameter_groups : List GDict
  custom_layer_parameters : List GDict
  train_custom_parameters_only : Bool
  weight_decay : ℚ
  gradient_accumulation_steps : ℕ
  epochs : ℕ
  warmup_ratio : ℚ
  warmup_steps : ℤ
  learning_rate : ℚ
  adam_epsilon : ℚ
  fl_algorithm : String
  fedprox_mu : ℚ
  n_gpu : ℕ
  fp16 : Bool
  max_grad_norm : ℚ
  evaluate_during_training : Bool
  eval_batch_size : ℕ
  evaluate_generated_text : Bool
  output_dir : String
  model_type : String
  deriving DecidableEq, Repr, Inhabited

/-- Source lines 63-115 as a whole: optimizer_grouped_parameters. Returns
the groups in construction order (custom named groups, then the layer
group pairs, then the catch-alls unless train_custom_parameters_only),
the final custom_parameter_names, and the configuration with the popped
group dicts as the loops left them. -/
def optimizerGroupedParameters (args : Args) (model : Model) :
    Except String (List ParamGroup × List String × Args) :=
  match customGroupsPhase model args.custom_parameter_groups [] with
  | Except.error e => Except.error e
  | Except.ok (gA, clA, dA) =>
    match layerGroupsPhase model args.custom_layer_parameters clA with
    | Except.error e => Except.error e
    | Except.ok (gB, clB, dB) =>
      let gC := if args.train_custom_parameters_only then [] else
        catchAllGroups args.weight_decay model clB
      Except.ok (gA ++ gB ++ gC, clB,
        { args with custom_parameter_groups := dA, custom_layer_parameters := dB })

/-- The number of occurrences of a parameter tensor across all groups. -/
def groupCount (p : Tensor) (gs : List ParamGroup) : ℕ :=
  (gs.map (fun g => g.params.count p)).sum

/-- The groups built by optimizerGroupedParameters, empty on error. -/
def groupsOf (args : Args) (model : Model) : List ParamGroup :=
  match optimizerGroupedParameters args model with
  | Except.ok r => r.1
  | Except.error _ => []

/-- A torch optimizer as build_optimizer configures one: its family and
its parameter groups. AdamW(model.parameters(), lr, eps) and
SGD(model.parameters(), lr) each bind every model parameter in one group;
the weight_decay entry is the library default 0 because build_optimizer
passes none (transformers AdamW defaults weight_decay to 0.0, torch SGD
likewise). -/
structure Optimizer where
  kind : String
  param_groups : List ParamGroup
  deriving DecidableEq, Repr, Inhabited

/-- The linear-warmup schedule parameters handed to
get_linear_schedule_with_warmup. -/
structure Scheduler where
  num_warmup_steps : ℤ
  num_training_steps : ℕ
  deriving DecidableEq, Repr, Inhabited

/-- Source lines 281-292: build_optimizer. Computes the warmup count as
ceil(iteration_in_total * warmup_ratio), keeps a configured nonzero
warmup_steps (writing the field back into args), picks AdamW for the
FedOPT or empty algorithm tag and SGD otherwise, and builds the schedule.
Both optimizers are built from model.parameters(), not from the grouped
parameters of train_model. -/
def build_optimizer (args : Args) (model : Model) (iteration_in_total : ℕ) :
    Args × Optimizer × Scheduler :=
  let warmup_steps : ℤ := Int.ceil ((iteration_in_total : ℚ) * args.warmup_ratio)
  let args := { args with warmup_steps :=
    if args.warmup_steps = 0 then warmup_steps else args.warmup_steps }
  let optimizer : Optimizer :=
    if args.fl_algorithm = "FedOPT" ∨ args.fl_algorithm = "" then
      { kind := "AdamW",
        param_groups := [{ spec := [("lr", GVal.num args.learning_rate),
                                    ("eps", GVal.num args.adam_epsilon),
                                    ("weight_decay", GVal.num 0)],
                           params := model.parameters }] }
    else
      { kind := "SGD",
        param_groups := [{ spec := [("lr", GVal.num args.learning_rate),
                                    ("weight_decay", GVal.num 0)],
                           params := model.parameters }] }
  (args, optimizer, { num_warmup_steps := args.warmup_steps,
                      num_training_steps := iteration_in_total })

/-- A token-id tensor of shape batch by sequence. -/
abbrev Tensor2 := List (List ℤ)

/-- A raw batch as _get_inputs_dict receives one: a dict keyed by
source_ids, source_mask, target_ids (bart and marian preprocessing), a
dict keyed by input_ids, attention_mask, decoder_input_ids, labels
(mbart), or an indexed tuple whose slot 0 is the input ids and slot 1 the
label ids (every other family). -/
inductive SBatch where
  | dictS (source_ids source_mask target_ids : Tensor2)
  | dictM (input_ids attention_mask decoder_input_ids labels : Tensor2)
  | tup (b0 b1 : Tensor2)
  deriving DecidableEq, Repr, Inhabited

/-- The named-tensor mapping handed to the model. attention_mask is
absent in the default branch. -/
structure Inputs where
  input_ids : Tensor2
  attention_mask : Option Tensor2
  decoder_input_ids : Tensor2
  labels : Tensor2
  deriving DecidableEq, Repr, Inhabited

/-- Replaces every entry equal to the pad id by the ignore index -100,
applied elementwise to a two-dimensional tensor. -/
def maskPad (pad : ℤ) (t : Tensor2) : Tensor2 :=
  t.map (fun row => row.map (fun v => if v = pad then -100 else v))

/-- Source lines 294-327: _get_inputs_dict. The bart and marian branch
shifts the target: decoder inputs drop the last token, labels drop the
first and mask encoder-pad positions; the mbart branch passes the four
tensors through; the default branch uses the raw labels as decoder inputs
and masks decoder-pad positions in a clone for the loss target. Device
moves are the identity here. A batch whose shape does not match the
branch raises (KeyError or IndexError), embedded as an error. -/
def get_inputs_dict (args : Args) (encoder_pad_token_id decoder_pad_token_id : ℤ)
    (batch : SBatch) : Except String Inputs :=
  if args.model_type = "bart" ∨ args.model_type = "marian" then
    match batch with
    | SBatch.dictS source_ids source_mask y =>
      let y_ids := y.map (fun row => row.dropLast)
      let lm_labels := maskPad encoder_pad_token_id (y.map (fun row => row.drop 1))
      Except.ok { input_ids := source_ids, attention_mask := some source_mask,
                  decoder_input_ids := y_ids, labels := lm_labels }
    | _ => Except.error "KeyError"
  else if args.model_type = "mbart" then
    match batch with
    | SBatch.dictM input_ids attention_mask decoder_input_ids labels =>
      Except.ok { input_ids := input_ids, attention_mask := some attention_mask,
                  decoder_input_ids := decoder_input_ids, labels := labels }
    | _ => Except.error "KeyError"
  else
    match batch with
    | SBatch.tup b0 b1 =>
      let lm_labels := b1
      let lm_labels_masked := maskPad decoder_pad_token_id lm_labels
      Except.ok { input_ids := b0, attention_mask := none,
                  decoder_input_ids := lm_labels, labels := lm_labels_masked }
    | _ => Except.error "IndexError"

/-- Entry r c of a two-dimensional tensor, none when out of range. -/
def getv (t : Tensor2) (r c : ℕ) : Option ℤ :=
  t[r]?.bind (fun row => row[c]?)

/-- The elementwise difference p - g of two tensors. -/
def tensorSub (p g : Tensor) : Tensor :=
  List.zipWith (fun a b => a - b) p g

/-- The squared Frobenius norm of a tensor: torch.norm(t) ** 2 equals the
sum of the squared entries, embedded directly as that sum. -/
def normSq (t : Tensor) : ℚ :=
  (t.map (fun a => a * a)).sum

/-- Source lines 174-178: the FedProx proximal term, (mu / 2) times the
squared distance summed over zip(model.parameters(),
global_model.parameters()). -/
def fedProxReg (mu : ℚ) (m global_model : Model) : ℚ :=
  ((List.zip m.parameters global_model.parameters).map
    (fun pg => mu / 2 * normSq (tensorSub pg.1 pg.2))).sum

/-- The mutable state of the epoch and batch loops of train_model. The
trace records, per batch in order, the batch, the model at forward time
and the loss value read by loss.item() after the optional FedProx term. -/
structure TState (β : Type) where
  model : Model
  global_step : ℕ
  tr_loss : ℚ
  trace : List (β × Model × ℚ)
  deriving DecidableEq, Repr, Inhabited

/-- Source lines 155-208, one batch: forward pass (black box modelForward
over the adapted inputs), the mean over devices being the identity on a
scalar loss, the optional FedProx term against the frozen snapshot,
loss.item() recorded, division by the accumulation count when it exceeds
one, and every accumulation-th batch one optimizer step (black box
optStep, covering clip, step and zero_grad) with the step counter
incremented. Mixed-precision scaling changes no value seen here. -/
def trainBatchStep {β : Type} (args : Args) (getInputs : β → Inputs)
    (modelForward : Model → Inputs → ℚ) (optStep : Model → Model)
    (global_model : Model) (st : TState β) (batch_idx : ℕ) (batch : β) : TState β :=
  let inputs := getInputs batch
  let loss := modelForward st.model inputs
  let loss := if args.fl_algorithm = "FedProx" then
      loss + fedProxReg args.fedprox_mu st.model global_model
    else loss
  let current_loss := loss
  let loss := if 1 < args.gradient_accumulation_steps then
      loss / (args.gradient_accumulation_steps : ℚ)
    else loss
  let tr_loss := st.tr_loss + loss
  if (batch_idx + 1) % args.gradient_accumulation_steps = 0 then
    { model := optStep st.model, global_step := st.global_step + 1,
      tr_loss := tr_loss, trace := st.trace ++ [(batch, st.model, current_loss)] }
  else
    { model := st.model, global_step := st.global_step,
      tr_loss := tr_loss, trace := st.trace ++ [(batch, st.model, current_loss)] }

/-- Source line 155: for batch_idx, batch in enumerate(train_dl). -/
def trainBatches {β : Type} (args : Args) (getInputs : β → Inputs)
    (modelForward : Model → Inputs → ℚ) (optStep : Model → Model)
    (global_model : Model) : List β → ℕ → TState β → TState β
  | [], _, st => st
  | b :: rest, batch_idx, st =>
    trainBatches args getInputs modelForward optStep global_model rest (batch_idx + 1)
      (trainBatchStep args getInputs modelForward optStep global_model st batch_idx b)

/-- Source line 151: for epoch in range(0, args.epochs). -/
def trainEpochs {β : Type} (args : Args) (getInputs : β → Inputs)
    (modelForward : Model → Inputs → ℚ) (optStep : Model → Model)
    (global_model : Model) (train_dl : List β) : ℕ → TState β → TState β
  | 0, st => st
  | n + 1, st =>
    trainEpochs args getInputs modelForward optStep global_model train_dl n
      (trainBatches args getInputs modelForward optStep global_model train_dl 0 st)

/-- What train_model returns and leaves behind: the grouped parameters it
built, the optimizer and scheduler, the returned global_step and mean
loss, the per-batch trace, the final model and the configuration object
as train_model leaves it. -/
structure TrainResult (β : Type) where
  groups : List ParamGroup
  optimizer : Optimizer
  scheduler : Scheduler
  global_step : ℕ
  avg_loss : ℚ
  trace : List (β × Model × ℚ)
  model : Model
  args : Args
  deriving DecidableEq, Repr, Inhabited

/-- Source lines 117-210, the body of train_model after the parameter
partition: computes iteration_in_total = len(train_dl) // accumulation *
epochs, calls build_optimizer (which writes args.warmup_steps), snapshots
the model for FedProx (a deep copy of a pure value is the value itself),
runs the epochs and packages global_step and tr_loss / global_step with
the state train_model leaves behind. -/
def trainModelRun {β : Type} (ogp : List ParamGroup) (args : Args) (model : Model)
    (train_dl : List β) (getInputs : β → Inputs) (modelForward : Model → Inputs → ℚ)
    (optStep : Model → Model) : TrainResult β :=
  let iteration_in_total :=
    train_dl.length / args.gradient_accumulation_steps * args.epochs
  let b := build_optimizer args model iteration_in_total
  let args := b.1
  let global_model := model
  let st := trainEpochs args getInputs modelForward optStep global_model train_dl
    args.epochs { model := model, global_step := 0, tr_loss := 0, trace := [] }
  { groups := ogp, optimizer := b.2.1, scheduler := b.2.2,
    global_step := st.global_step,
    avg_loss := st.tr_loss / (st.global_step : ℚ),
    trace := st.trace, model := st.model, args := args }

/-- Source lines 52-210, continued: the guards of train_model around the
core run, raising on a zero accumulation count (the floor division at
line 117) and on a zero final global_step (the division at line 210). -/
def trainModel {β : Type} (args : Args) (model : Model) (train_dl : List β)
    (getInputs : β → Inputs) (modelForward : Model → Inputs → ℚ)
    (optStep : Model → Model) : Except String (TrainResult β) :=
  match optimizerGroupedParameters args model with
  | Except.error e => Except.error e
  | Except.ok (ogp, _cl, args) =>
    if args.gradient_accumulation_steps = 0 then Except.error "ZeroDivisionError"
    else
      let r := trainModelRun ogp args model train_dl getInputs modelForward optStep
      if r.global_step = 0 then Except.error "ZeroDivisionError"
      else Except.ok r

/-- A metric mapping (Python dict from metric name to value), embedded as
an insertion-ordered association list. -/
abbrev MMap := List (String × ℚ)

/-- Embeds dict assignment for metric maps: replace in place when the key
is present, append otherwise. -/
def MMap.setk (m : MMap) (k : String) (v : ℚ) : MMap :=
  match m.lookup k with
  | some _ => m.map (fun kv => if kv.1 = k then (k, v) else kv)
  | none => m ++ [(k, v)]

/-- Embeds dict.update(other): assign every pair of other in order, so
later calls overwrite same-named keys. -/
def MMap.update (m other : MMap) : MMap :=
  other.foldl (fun acc kv => acc.setk kv.1 kv.2) m

/-- Stable insertion of a key into an ascending list, the helper of the
embedding of the Python sorted builtin. -/
def insortKey (k : String) : List String → List String
  | [] => [k]
  | x :: xs => if k ≤ x then k :: x :: xs else x :: insortKey k xs

/-- Embeds sorted(keys): an ascending permutation of the keys. -/
def pySorted : List String → List String
  | [] => []
  | x :: xs => insortKey x (pySorted xs)

/-- Source lines 264-266: the results file content, one pair per metric
key in ascending key order; each pair is rendered on disk as the line
key = value. -/
def sortedKVs (result : MMap) : List (String × ℚ) :=
  (pySorted (result.map Prod.fst)).map
    (fun k => (k, (result.lookup k).getD 0))

/-- One held-out example with its source and reference text, as the
evaluation data loader exposes them. -/
structure Example where
  input_text : String
  output_text : String
  deriving DecidableEq, Repr, Inhabited

/-- The evaluation data loader: its batch stream, len(test_dl.dataset)
and the raw examples used by generated-text evaluation. -/
structure TestDL (β : Type) where
  batches : List β
  dataset_len : ℕ
  examples : List Example
  deriving DecidableEq, Repr, Inhabited

/-- Source lines 233-250, one batch of the evaluation loop: accumulate
the batch loss (black box lossOf, covering the adapter and the no_grad
forward pass), count the step, and record the logged start and end row
indices, the end index of the final batch being the total sample count. -/
def evalBatchStep {β : Type} (eval_batch_size : ℕ) (lossOf : β → ℚ)
    (n_batches test_sample_len : ℕ) (st : ℚ × ℕ × List (ℕ × ℕ)) (i : ℕ) (batch : β) :
    ℚ × ℕ × List (ℕ × ℕ) :=
  let eval_loss := st.1 + lossOf batch
  let nb_eval_steps := st.2.1 + 1
  let start_index := eval_batch_size * i
  let end_index := if i ≠ n_batches - 1 then start_index + eval_batch_size
    else test_sample_len
  (eval_loss, nb_eval_steps, st.2.2 ++ [(start_index, end_index)])

/-- Source line 233: for i, batch in enumerate(test_dl). -/
def evalBatches {β : Type} (eval_batch_size : ℕ) (lossOf : β → ℚ)
    (n_batches test_sample_len : ℕ) :
    List β → ℕ → ℚ × ℕ × List (ℕ × ℕ) → ℚ × ℕ × List (ℕ × ℕ)
  | [], _, st => st
  | b :: rest, i, st =>
    evalBatches eval_batch_size lossOf n_batches test_sample_len rest (i + 1)
      (evalBatchStep eval_batch_size lossOf n_batches test_sample_len st i b)

deriving instance DecidableEq for Except

/-- What eval_model leaves behind: the logged index ranges, the mean
loss, the directory created with exist_ok, the results file content
(pairs rendered as key = value lines), the cumulative self.results
mapping after the merges, and the outcome of the return statement. The
retval error records the exception raised by the return statement after
every other field's side effect already happened. -/
structure EvalResult where
  ranges : List (ℕ × ℕ)
  eval_loss : ℚ
  made_dir : String
  file_kvs : List (String × ℚ)
  trainer_results : MMap
  retval : Except String (MMap × List String)
  deriving DecidableEq, Repr, Inhabited

/-- Source lines 212-279: eval_model. Runs the loop, divides by the step
count (ZeroDivisionError on an empty batch stream, before any write),
builds the loss result, merges it into self.results, creates the output
directory and overwrites eval_results.txt with the sorted loss result,
then under evaluate_generated_text rebinds result to the black-box
compute_metrics output over black-box predictions and merges that too.
The final return references model_preds, which is bound only inside the
generated-text branch, so the plain path raises UnboundLocalError after
the file is written; the wandb.log call and the local results dict write
no trainer state and are not modelled. -/
def evalModel {β : Type} (args : Args) (trainerResults : MMap) (test_dl : TestDL β)
    (lossOf : β → ℚ) (predictFn : List String → List String)
    (computeMetricsFn : List String → List String → MMap) :
    Except String EvalResult :=
  let n_batches := test_dl.batches.length
  let test_sample_len := test_dl.dataset_len
  let eval_output_dir := args.output_dir
  let loop := evalBatches args.eval_batch_size lossOf n_batches test_sample_len
    test_dl.batches 0 (0, 0, [])
  if loop.2.1 = 0 then Except.error "ZeroDivisionError"
  else
    let eval_loss := loop.1 / (loop.2.1 : ℚ)
    let result : MMap := [("eval_loss", eval_loss)]
    let trainerResults1 := MMap.update trainerResults result
    let file_kvs := sortedKVs result
    if args.evaluate_generated_text then
      let to_predict := test_dl.examples.map Example.input_text
      let references := test_dl.examples.map Example.output_text
      let model_preds := predictFn to_predict
      let result2 := computeMetricsFn references model_preds
      let trainerResults2 := MMap.update trainerResults1 result2
      Except.ok { ranges := loop.2.2, eval_loss := eval_loss,
                  made_dir := eval_output_dir, file_kvs := file_kvs,
                  trainer_results := trainerResults2,
                  retval := Except.ok (result2, model_preds) }
    else
      Except.ok { ranges := loop.2.2, eval_loss := eval_loss,
                  made_dir := eval_output_dir, file_kvs := file_kvs,
                  trainer_results := trainerResults1,
                  retval := Except.error "UnboundLocalError: model_preds" }

/-- The layer marker string layer.{index}. of a custom layer group. -/
def layerMarkerOf (g : GDict) : String :=
  "layer." ++ toString ((layerIdxOf g).getD 0) ++ "."

/-- Two custom parameter group specs with disjoint params name lists. -/
def DisjNames (g1 g2 : GDict) : Prop :=
  ∀ m ∈ (paramNamesOf g1).getD [], m ∉ (paramNamesOf g2).getD []

/-- A baseline configuration for concrete runs: no custom groups, unit
accumulation, one epoch, the empty algorithm tag, a t5-style model type. -/
def baseArgs : Args :=
  { custom_parameter_groups := [], custom_layer_parameters := [],
    train_custom_parameters_only := false, weight_decay := 0,
    gradient_accumulation_steps := 1, epochs := 1, warmup_ratio := 0,
    warmup_steps := 0, learning_rate := 1, adam_epsilon := 0,
    fl_algorithm := "", fedprox_mu := 0, n_gpu := 1, fp16 := false,
    max_grad_norm := 1, evaluate_during_training := false,
    eval_batch_size := 1, evaluate_generated_text := false,
    output_dir := "outputs", model_type := "t5" }

/-- A model with no parameters. -/
def cEmptyModel : Model := { named_parameters := [] }

/-- Trivial adapted inputs for black-box training runs over Unit batches. -/
def cInputs0 : Inputs :=
  { input_ids := [], attention_mask := none, decoder_input_ids := [], labels := [] }

/-- The batch adapter for black-box training runs over Unit batches. -/
def cGetInputs : Unit → Inputs := fun _ => cInputs0

/-- A configuration whose two custom parameter groups both name w. -/
def cArgsDup : Args :=
  { baseArgs with custom_parameter_groups :=
      [[("params", GVal.strs ["w"])], [("params", GVal.strs ["w"])]] }

/-- A one-parameter model named w. -/
def cModelW : Model := { named_parameters := [("w", [1])] }

/-- A configuration with one custom named group and one custom layer
group. -/
def cArgsCustom : Args :=
  { baseArgs with
      custom_parameter_groups := [[("params", GVal.strs ["w"]), ("lr", GVal.num 1)]],
      custom_layer_parameters := [[("layer", GVal.nat 0), ("lr", GVal.num 2)]] }

/-- A four-parameter model exercising the custom, layer, decay and
no-decay groups. -/
def cModelLayers : Model :=
  { named_parameters :=
      [("w", [1]), ("layer.0.q", [2]), ("layer.0.q.bias", [3]), ("x.bias", [4])] }

/-- A configuration with nonzero weight decay and no custom groups. -/
def cArgsWd : Args := { baseArgs with weight_decay := 7 }

/-- A model with one decayed and one no-decay parameter. -/
def cModelWb : Model := { named_parameters := [("w", [1]), ("bias", [2])] }

/-- Two epochs with accumulation 2. -/
def cArgsAcc2 : Args := { baseArgs with epochs := 2, gradient_accumulation_steps := 2 }

/-- Two epochs with accumulation 1. -/
def cArgsEp2 : Args := { baseArgs with epochs := 2 }

/-- A FedProx configuration with mu 2. -/
def cArgsProx : Args := { baseArgs with fl_algorithm := "FedProx", fedprox_mu := 2 }

/-- A one-parameter model with value 3. -/
def cModelW3 : Model := { named_parameters := [("w", [3])] }

/-- A black-box optimizer step that adds one to every parameter entry. -/
def cOptStep : Model → Model :=
  fun m => { named_parameters := m.named_parameters.map (fun np => (np.1, np.2.map (fun q => q + 1))) }

/-- A configuration with one custom parameter group carrying an extra
weight_decay entry. -/
def cArgsCpg : Args :=
  { baseArgs with custom_parameter_groups :=
      [[("params", GVal.strs ["w"]), ("weight_decay", GVal.num 1)]] }

/-- Evaluation batch size 8. -/
def cArgsEval8 : Args := { baseArgs with eval_batch_size := 8 }

/-- Three evaluation batches over 21 samples. -/
def cDL21 : TestDL Unit := { batches := [(), (), ()], dataset_len := 21, examples := [] }

/-- Generated-text evaluation enabled. -/
def cArgsGen : Args := { baseArgs with evaluate_generated_text := true }

/-- A single evaluation batch with one example. -/
def cDLGen : TestDL Unit :=
  { batches := [()], dataset_len := 1,
    examples := [{ input_text := "i", output_text := "o" }] }

/-- A single evaluation batch with no examples. -/
def cDL1 : TestDL Unit := { batches := [()], dataset_len := 1, examples := [] }

/-- The evaluation outcome of the 21-sample three-batch run. -/
def cEvalR21 : EvalResult :=
  { ranges := [(0, 8), (8, 16), (16, 21)], eval_loss := 1, made_dir := "outputs",
    file_kvs := [("eval_loss", 1)], trainer_results := [("eval_loss", 1)],
    retval := Except.error "UnboundLocalError: model_preds" }

/-- The evaluation outcome of the generated-text run whose compute_metrics
yields an f1 entry. -/
def cR8 : EvalResult :=
  { ranges := [(0, 1)], eval_loss := 2, made_dir := "outputs",
    file_kvs := [("eval_loss", 2)], trainer_results := [("eval_loss", 2), ("f1", 1)],
    retval := Except.ok ([("f1", 1)], ["p"]) }

/-- The training outcome of two epochs over three batches with unit
accumulation and constant unit loss. -/
def cR3w : TrainResult Unit :=
  { groups := [{ spec := [("weight_decay", GVal.num 0)], params := [] },
               { spec := [("weight_decay", GVal.num 0)], params := [] }],
    optimizer := { kind := "AdamW",
                   param_groups := [{ spec := [("lr", GVal.num 1), ("eps", GVal.num 0),
                                               ("weight_decay", GVal.num 0)],
                                      params := [] }] },
    scheduler := { num_warmup_steps := 0, num_training_steps := 6 },
    global_step := 6, avg_loss := 1,
    trace := [((), cEmptyModel, 1), ((), cEmptyModel, 1), ((), cEmptyModel, 1),
              ((), cEmptyModel, 1), ((), cEmptyModel, 1), ((), cEmptyModel, 1)],
    model := cEmptyModel, args := cArgsEp2 }

/-- The training outcome of the FedProx run over two batches with the
parameter-incrementing step oracle. -/
def cR6 : TrainResult Unit :=
  { groups := [{ spec := [("weight_decay", GVal.num 0)], params := [[3]] },
               { spec := [("weight_decay", GVal.num 0)], params := [] }],
    optimizer := { kind := "SGD",
                   param_groups := [{ spec := [("lr", GVal.num 1), ("weight_decay", GVal.num 0)],
                                      params := [[3]] }] },
    scheduler := { num_warmup_steps := 0, num_training_steps := 2 },
    global_step := 2, avg_loss := 11 / 2,
    trace := [((), { named_parameters := [("w", [3])] }, 5),
              ((), { named_parameters := [("w", [4])] }, 6)],
    model := { named_parameters := [("w", [5])] }, args := cArgsProx }

/-- The training outcome of the run whose configuration carries one
custom parameter group; the group dict in the configuration has lost its
params key. -/
def cR9 : TrainResult Unit :=
  { groups := [{ spec := [("weight_decay", GVal.num 1)], params := [[1]] },
               { spec := [("weight_decay", GVal.num 0)], params := [] },
               { spec := [("weight_decay", GVal.num 0)], params := [] }],
    optimizer := { kind := "AdamW",
                   param_groups := [{ spec := [("lr", GVal.num 1), ("eps", GVal.num 0),
                                               ("weight_decay", GVal.num 0)],
                                      params := [[1]] }] },
    scheduler := { num_warmup_steps := 0, num_training_steps := 1 },
    global_step := 1, avg_loss := 1,
    trace := [((), cModelW, 1)],
    model := cModelW,
    args := { cArgsCpg with custom_parameter_groups := [[("weight_decay", GVal.num 1)]] } }

/-- The single-metric file content reduces to the single pair. -/
theorem sortedKVs_eval_loss (q : ℚ) : sortedKVs [("eval_loss", q)] = [("eval_loss", q)] := rfl

/-- Closed form of the evaluation loop fold: total loss, step count and
the logged index ranges. -/
theorem evalBatches_spec {β : Type} (b : ℕ) (f : β → ℚ) (nb len : ℕ) (l : List β)
    (i : ℕ) (st : ℚ × ℕ × List (ℕ × ℕ)) :
    evalBatches b f nb len l i st
      = (st.1 + (l.map f).sum, st.2.1 + l.length,
         st.2.2 ++ (List.range' i l.length).map
           (fun j => (b * j, if j ≠ nb - 1 then b * j + b else len))) := by
  induction l generalizing i st with
  | nil => simp [evalBatches]
  | cons x rest ih =>
    rw [evalBatches, ih]
    unfold evalBatchStep
    simp [List.range'_succ, add_assoc, Nat.add_comm]

/-- An empty evaluation stream raises before any side effect. -/
theorem evalModel_nil {β : Type} (args : Args) (prev : MMap) (dl : TestDL β)
    (f : β → ℚ) (p : List String → List String) (cm : List String → List String → MMap)
    (hne : dl.batches = []) :
    evalModel args prev dl f p cm = Except.error "ZeroDivisionError" := by
  unfold evalModel
  rw [hne]
  simp [evalBatches]

/-- Closed form of eval_model without generated-text evaluation. -/
theorem evalModel_ok_plain {β : Type} (args : Args) (prev : MMap) (dl : TestDL β)
    (f : β → ℚ) (p : List String → List String) (cm : List String → List String → MMap)
    (hne : dl.batches ≠ []) (hegt : args.evaluate_generated_text = false) :
    evalModel args prev dl f p cm = Except.ok
      { ranges := (List.range dl.batches.length).map (fun j => (args.eval_batch_size * j,
          if j ≠ dl.batches.length - 1 then args.eval_batch_size * j + args.eval_batch_size
          else dl.dataset_len)),
        eval_loss := (dl.batches.map f).sum / (dl.batches.length : ℚ),
        made_dir := args.output_dir,
        file_kvs := [("eval_loss", (dl.batches.map f).sum / (dl.batches.length : ℚ))],
        trainer_results := MMap.update prev
          [("eval_loss", (dl.batches.map f).sum / (dl.batches.length : ℚ))],
        retval := Except.error "UnboundLocalError: model_preds" } := by
  have hlen : dl.batches.length ≠ 0 := fun h => hne (List.length_eq_zero.mp h)
  unfold evalModel
  simp [evalBatches_spec, hlen, hegt, sortedKVs_eval_loss, List.range_eq_range']

/-- Closed form of eval_model with generated-text evaluation. -/
theorem evalModel_ok_gen {β : Type} (args : Args) (prev : MMap) (dl : TestDL β)
    (f : β → ℚ) (p : List String → List String) (cm : List String → List String → MMap)
    (hne : dl.batches ≠ []) (hegt : args.evaluate_generated_text = true) :
    evalModel args prev dl f p cm = Except.ok
      { ranges := (List.range dl.batches.length).map (fun j => (args.eval_batch_size * j,
          if j ≠ dl.batches.length - 1 then args.eval_batch_size * j + args.eval_batch_size
          else dl.dataset_len)),
        eval_loss := (dl.batches.map f).sum / (dl.batches.length : ℚ),
        made_dir := args.output_dir,
        file_kvs := [("eval_loss", (dl.batches.map f).sum / (dl.batches.length : ℚ))],
        trainer_results := MMap.update (MMap.update prev
            [("eval_loss", (dl.batches.map f).sum / (dl.batches.length : ℚ))])
          (cm (dl.examples.map Example.output_text) (p (dl.examples.map Example.input_text))),
        retval := Except.ok
          (cm (dl.examples.map Example.output_text) (p (dl.examples.map Example.input_text)),
           p (dl.examples.map Example.input_text)) } := by
  have hlen : dl.batches.length ≠ 0 := fun h => hne (List.length_eq_zero.mp h)
  unfold evalModel
  simp [evalBatches_spec, hlen, hegt, sortedKVs_eval_loss, List.range_eq_range']

/-- C7: in eval_model, batch i over n_batches batches with eval batch
size b and test_sample_len samples logs the row range with start b * i
and end b * i + b, except the final batch whose end index is
test_sample_len. -/
theorem eval_model_index_ranges {β : Type} (args : Args) (prev : MMap) (dl : TestDL β)
    (f : β → ℚ) (p : List String → List String) (cm : List String → List String → MMap)
    (r : EvalResult) (h : evalModel args prev dl f p cm = Except.ok r) :
    r.ranges = (List.range dl.batches.length).map (fun j => (args.eval_batch_size * j,
      if j ≠ dl.batches.length - 1 then args.eval_batch_size * j + args.eval_batch_size
      else dl.dataset_len)) := by
  by_cases hne : dl.batches = []
  · rw [evalModel_nil args prev dl f p cm hne] at h
    cases h
  · cases hegt : args.evaluate_generated_text with
    | false =>
      rw [evalModel_ok_plain args prev dl f p cm hne hegt] at h
      injection h with h
      rw [← h]
    | true =>
      rw [evalModel_ok_gen args prev dl f p cm hne hegt] at h
      injection h with h
      rw [← h]

/-- Witness for C7: batch size 8 over 21 samples in three batches logs
the ranges (0,8), (8,16), (16,21). -/
theorem eval_model_index_ranges_witness :
    evalModel cArgsEval8 [] cDL21 (fun _ => (1 : ℚ)) (fun _ => []) (fun _ _ => [])
      = Except.ok cEvalR21
    ∧ cEvalR21.ranges = [(0, 8), (8, 16), (16, 21)] := by
  have h1 : evalModel cArgsEval8 [] cDL21 (fun _ => (1 : ℚ)) (fun _ => []) (fun _ _ => [])
      = Except.ok cEvalR21 := by
    norm_num [evalModel, evalBatches, evalBatchStep, sortedKVs, pySorted, insortKey,
      MMap.update, MMap.setk, cArgsEval8, cDL21, baseArgs, cEvalR21, List.lookup]
  refine ⟨h1, ?_⟩
  rw [eval_model_index_ranges cArgsEval8 [] cDL21 _ _ _ cEvalR21 h1]
  decide

/-- C8 (amended): every eval_model call over a nonempty batch stream
creates the output directory, overwrites the results file with exactly
the loss metrics present at write time (the single eval_loss line, its
keys trivially sorted), and merges all computed metrics into the
cumulative results; generated-text metrics are merged but not written to
the file. -/
theorem eval_model_file_and_merge {β : Type} (args : Args) (prev : MMap) (dl : TestDL β)
    (f : β → ℚ) (p : List String → List String) (cm : List String → List String → MMap)
    (r : EvalResult) (h : evalModel args prev dl f p cm = Except.ok r) :
    r.made_dir = args.output_dir
    ∧ r.file_kvs = [("eval_loss", r.eval_loss)]
    ∧ r.trainer_results = (if args.evaluate_generated_text then
        MMap.update (MMap.update prev [("eval_loss", r.eval_loss)])
          (cm (dl.examples.map Example.output_text) (p (dl.examples.map Example.input_text)))
      else MMap.update prev [("eval_loss", r.eval_loss)]) := by
  by_cases hne : dl.batches = []
  · rw [evalModel_nil args prev dl f p cm hne] at h
    cases h
  · cases hegt : args.evaluate_generated_text with
    | false =>
      rw [evalModel_ok_plain args prev dl f p cm hne hegt] at h
      injection h with h
      rw [← h]
      simp
    | true =>
      rw [evalModel_ok_gen args prev dl f p cm hne hegt] at h
      injection h with h
      rw [← h]
      simp

/-- C8 counterexample: with generated-text evaluation enabled the call
computes and merges an f1 metric into the cumulative results, yet the
written file holds only the eval_loss line, so not every computed metric
gets a line in eval_results.txt. -/
theorem eval_model_file_misses_generated_metrics :
    evalModel cArgsGen [] cDLGen (fun _ => (2 : ℚ)) (fun _ => ["p"]) (fun _ _ => [("f1", 1)])
      = Except.ok cR8
    ∧ ("f1", (1 : ℚ)) ∈ cR8.trainer_results
    ∧ cR8.file_kvs.map Prod.fst = ["eval_loss"] := by
  refine ⟨?_, by decide, by decide⟩
  norm_num [evalModel, evalBatches, evalBatchStep, sortedKVs, pySorted, insortKey,
    MMap.update, MMap.setk, cArgsGen, cDLGen, baseArgs, cR8, List.lookup]
  decide

/-- Witness for C8 at the generated-text instance. -/
theorem eval_model_file_and_merge_witness :
    evalModel cArgsGen [] cDLGen (fun _ => (2 : ℚ)) (fun _ => ["p"]) (fun _ _ => [("f1", 1)])
      = Except.ok cR8
    ∧ cR8.made_dir = cArgsGen.output_dir
    ∧ cR8.file_kvs = [("eval_loss", cR8.eval_loss)]
    ∧ cR8.trainer_results = (if cArgsGen.evaluate_generated_text then
        MMap.update (MMap.update [] [("eval_loss", cR8.eval_loss)])
          (([("f1", 1)] : MMap))
      else MMap.update [] [("eval_loss", cR8.eval_loss)]) := by
  have h1 : evalModel cArgsGen [] cDLGen (fun _ => (2 : ℚ)) (fun _ => ["p"]) (fun _ _ => [("f1", 1)])
      = Except.ok cR8 := by
    norm_num [evalModel, evalBatches, evalBatchStep, sortedKVs, pySorted, insortKey,
      MMap.update, MMap.setk, cArgsGen, cDLGen, baseArgs, cR8, List.lookup]
    decide
  refine ⟨h1, eval_model_file_and_merge cArgsGen [] cDLGen _ _ _ cR8 h1⟩

/-- C10: with evaluate_generated_text false, eval_model never returns its
triple normally: after the loss is accumulated, the directory created and
the results file written, the return statement raises an unbound-name
error on model_preds, which is only assigned in the generated-text
branch. -/
theorem eval_model_unbound_model_preds {β : Type} (args : Args) (prev : MMap)
    (dl : TestDL β) (f : β → ℚ) (p : List String → List String)
    (cm : List String → List String → MMap)
    (hegt : args.evaluate_generated_text = false) (hne : dl.batches ≠ []) :
    ∃ r, evalModel args prev dl f p cm = Except.ok r
      ∧ r.retval = Except.error "UnboundLocalError: model_preds"
      ∧ r.file_kvs = [("eval_loss", (dl.batches.map f).sum / (dl.batches.length : ℚ))]
      ∧ r.trainer_results
          = MMap.update prev [("eval_loss", (dl.batches.map f).sum / (dl.batches.length : ℚ))] :=
  ⟨_, evalModel_ok_plain args prev dl f p cm hne hegt, rfl, rfl, rfl⟩

/-- Witness for C10 at a one-batch evaluation stream. -/
theorem eval_model_unbound_model_preds_witness :
    ∃ r, evalModel baseArgs [] cDL1 (fun _ => (2 : ℚ)) (fun _ => []) (fun _ _ => [])
        = Except.ok r
      ∧ r.retval = Except.error "UnboundLocalError: model_preds"
      ∧ r.file_kvs
          = [("eval_loss", (cDL1.batches.map (fun _ => (2 : ℚ))).sum / (cDL1.batches.length : ℚ))]
      ∧ r.trainer_results
          = MMap.update []
              [("eval_loss", (cDL1.batches.map (fun _ => (2 : ℚ))).sum / (cDL1.batches.length : ℚ))] :=
  eval_model_unbound_model_preds baseArgs [] cDL1 (fun _ => (2 : ℚ)) (fun _ => [])
    (fun _ _ => []) rfl (by decide)

/-- C4: build_optimizer computes the warmup-step count as
ceil(iteration_in_total * warmup_ratio) when the configured warmup_steps
is zero and keeps a configured nonzero warmup_steps unchanged, handing
the value to the scheduler; 1000 steps at ratio 1/10 give 100, and an
explicit 50 overrides the ratio. -/
theorem build_optimizer_warmup_steps (args : Args) (model : Model) (iteration_in_total : ℕ) :
    ((build_optimizer args model iteration_in_total).1.warmup_steps
        = (if args.warmup_steps = 0
           then Int.ceil ((iteration_in_total : ℚ) * args.warmup_ratio)
           else args.warmup_steps))
    ∧ ((build_optimizer args model iteration_in_total).2.2.num_warmup_steps
        = (build_optimizer args model iteration_in_total).1.warmup_steps)
    ∧ (build_optimizer { baseArgs with warmup_ratio := 1 / 10 } cEmptyModel 1000).1.warmup_steps
        = 100
    ∧ (build_optimizer { baseArgs with warmup_ratio := 1 / 10, warmup_steps := 50 }
        cEmptyModel 1000).1.warmup_steps = 50 := by
  refine ⟨rfl, rfl, ?_, ?_⟩
  · norm_num [build_optimizer, baseArgs]
  · norm_num [build_optimizer, baseArgs]

/-- C2 (amended): build_optimizer returns an optimizer that binds every
model parameter in one default parameter group built from
model.parameters(), not the grouped parameters constructed in
train_model; the family is AdamW for the FedOPT or empty tag and SGD
otherwise, and the scheduler carries the computed warmup count and
iteration_in_total. -/
theorem build_optimizer_binds_all_parameters (args : Args) (model : Model)
    (iteration_in_total : ℕ) :
    ((build_optimizer args model iteration_in_total).2.1.param_groups.map ParamGroup.params
        = [model.parameters])
    ∧ ((build_optimizer args model iteration_in_total).2.1.kind
        = (if args.fl_algorithm = "FedOPT" ∨ args.fl_algorithm = "" then "AdamW" else "SGD"))
    ∧ ((build_optimizer args model iteration_in_total).2.2.num_training_steps
        = iteration_in_total) := by
  unfold build_optimizer
  by_cases h : args.fl_algorithm = "FedOPT" ∨ args.fl_algorithm = "" <;> simp [h]

/-- C2 counterexample: at a two-parameter model with weight decay 7
the partition of train_model yields two groups with distinct weight
decays (7 and 0), while the optimizer built by build_optimizer binds both
parameters in a single group with the library default weight decay, so
the optimizer is not bound to the constructed parameter groups. -/
theorem build_optimizer_ignores_groups_cex :
    (optimizerGroupedParameters cArgsWd cModelWb).map
        (fun r => r.1.map (fun g => (g.params, g.spec.lookup "weight_decay")))
      = Except.ok [([[1]], some (GVal.num 7)), ([[2]], some (GVal.num 0))]
    ∧ (build_optimizer cArgsWd cModelWb 10).2.1.param_groups.map
        (fun g => (g.params, g.spec.lookup "weight_decay"))
      = [([[1], [2]], some (GVal.num 0))]
    ∧ ([([[1]], some (GVal.num 7)), ([[2]], some (GVal.num 0))]
        : List (List Tensor × Option GVal))
      ≠ [([[1], [2]], some (GVal.num 0))] := by
  refine ⟨by decide, by decide, by decide⟩

/-- C5: for model types other than bart, marian and mbart, the batch
adapter returns the raw label tensor unchanged as decoder_input_ids, and
the labels tensor is a clone in which exactly the positions holding the
decoder pad id become -100 while every other position is unaltered. -/
theorem get_inputs_dict_default_branch (args : Args)
    (encoder_pad_token_id decoder_pad_token_id : ℤ) (b0 b1 : Tensor2)
    (h1 : args.model_type ≠ "bart") (h2 : args.model_type ≠ "marian")
    (h3 : args.model_type ≠ "mbart") :
    get_inputs_dict args encoder_pad_token_id decoder_pad_token_id (SBatch.tup b0 b1)
      = Except.ok { input_ids := b0, attention_mask := none,
                    decoder_input_ids := b1,
                    labels := maskPad decoder_pad_token_id b1 }
    ∧ ∀ r c, getv (maskPad decoder_pad_token_id b1) r c
        = (getv b1 r c).map (fun v => if v = decoder_pad_token_id then -100 else v) := by
  constructor
  · simp [get_inputs_dict, h1, h2, h3]
  · intro r c
    unfold getv maskPad
    rw [List.getElem?_map]
    cases hr : b1[r]? with
    | none => simp
    | some row => simp [List.getElem?_map]

/-- Witness for C5 with model type t5 and pad id 5: position 1 of the
label row holds the pad id and is mapped to -100, every other position
is unchanged, and the decoder inputs are the raw labels. -/
theorem get_inputs_dict_default_branch_witness :
    get_inputs_dict baseArgs 0 5 (SBatch.tup [[7]] [[1, 5, 2]])
      = Except.ok { input_ids := [[7]], attention_mask := none,
                    decoder_input_ids := [[1, 5, 2]],
                    labels := maskPad 5 [[1, 5, 2]] }
    ∧ getv (maskPad 5 [[1, 5, 2]]) 0 1
        = (getv [[1, 5, 2]] 0 1).map (fun v => if v = 5 then -100 else v) :=
  ⟨(get_inputs_dict_default_branch baseArgs 0 5 [[7]] [[1, 5, 2]]
      (by decide) (by decide) (by decide)).1,
   (get_inputs_dict_default_branch baseArgs 0 5 [[7]] [[1, 5, 2]]
      (by decide) (by decide) (by decide)).2 0 1⟩


/-- One batch step increments global_step exactly on every
accumulation-th batch. -/
theorem trainBatchStep_global_step {β : Type} (args : Args) (gI : β → Inputs)
    (mF : Model → Inputs → ℚ) (oS : Model → Model) (gm : Model) (st : TState β)
    (k : ℕ) (b : β) :
    (trainBatchStep args gI mF oS gm st k b).global_step
      = st.global_step
        + (if (k + 1) % args.gradient_accumulation_steps = 0 then 1 else 0) := by
  unfold trainBatchStep
  by_cases h : (k + 1) % args.gradient_accumulation_steps = 0 <;> simp [h]

/-- The batch loop starting at index k adds (k + n) / a - k / a optimizer
steps over its n batches. -/
theorem trainBatches_global_step {β : Type} (args : Args) (gI : β → Inputs)
    (mF : Model → Inputs → ℚ) (oS : Model → Model) (gm : Model) (l : List β)
    (k : ℕ) (st : TState β) :
    (trainBatches args gI mF oS gm l k st).global_step
      = st.global_step
        + ((k + l.length) / args.gradient_accumulation_steps
            - k / args.gradient_accumulation_steps) := by
  induction l generalizing k st with
  | nil => simp [trainBatches]
  | cons b rest ih =>
    rw [trainBatches, ih, trainBatchStep_global_step]
    simp only [List.length_cons]
    have hsucc : (k + 1) / args.gradient_accumulation_steps
        = k / args.gradient_accumulation_steps
          + if args.gradient_accumulation_steps ∣ (k + 1) then 1 else 0 :=
      Nat.succ_div k args.gradient_accumulation_steps
    have hmono1 : k / args.gradient_accumulation_steps
        ≤ (k + 1) / args.gradient_accumulation_steps :=
      Nat.div_le_div_right (Nat.le_succ k)
    have hmono2 : (k + 1) / args.gradient_accumulation_steps
        ≤ (k + 1 + rest.length) / args.gradient_accumulation_steps :=
      Nat.div_le_div_right (Nat.le_add_right _ _)
    have harr : k + (rest.length + 1) = k + 1 + rest.length := by omega
    rw [harr]
    by_cases hmod : (k + 1) % args.gradient_accumulation_steps = 0
    · have hd : args.gradient_accumulation_steps ∣ (k + 1) := Nat.dvd_of_mod_eq_zero hmod
      rw [if_pos hmod]
      rw [if_pos hd] at hsucc
      omega
    · have hd : ¬ args.gradient_accumulation_steps ∣ (k + 1) :=
        fun hdvd => hmod (Nat.mod_eq_zero_of_dvd hdvd)
      rw [if_neg hmod]
      rw [if_neg hd] at hsucc
      omega

/-- Each epoch adds len(train_dl) / accumulation optimizer steps. -/
theorem trainEpochs_global_step {β : Type} (args : Args) (gI : β → Inputs)
    (mF : Model → Inputs → ℚ) (oS : Model → Model) (gm : Model) (dl : List β)
    (n : ℕ) (st : TState β) :
    (trainEpochs args gI mF oS gm dl n st).global_step
      = st.global_step + n * (dl.length / args.gradient_accumulation_steps) := by
  induction n generalizing st with
  | zero => simp [trainEpochs]
  | succ n ih =>
    rw [trainEpochs, ih, trainBatches_global_step]
    simp [Nat.succ_mul]
    ring

/-- One batch step appends exactly one trace record: the batch, the model
at forward time, and the loss value after the optional FedProx term. -/
theorem trainBatchStep_trace {β : Type} (args : Args) (gI : β → Inputs)
    (mF : Model → Inputs → ℚ) (oS : Model → Model) (gm : Model) (st : TState β)
    (k : ℕ) (b : β) :
    (trainBatchStep args gI mF oS gm st k b).trace
      = st.trace ++ [(b, st.model, mF st.model (gI b)
          + (if args.fl_algorithm = "FedProx"
             then fedProxReg args.fedprox_mu st.model gm else 0))] := by
  unfold trainBatchStep
  by_cases hfl : args.fl_algorithm = "FedProx" <;>
    by_cases hmod : (k + 1) % args.gradient_accumulation_steps = 0 <;>
      simp [hfl, hmod]

/-- The per-batch loss relation is an invariant of the batch loop: every
trace record equals the forward loss plus the FedProx term against the
fixed snapshot, and only that term, exactly when the algorithm tag is
FedProx. -/
theorem trainBatches_trace {β : Type} (args : Args) (gI : β → Inputs)
    (mF : Model → Inputs → ℚ) (oS : Model → Model) (gm : Model) (l : List β)
    (k : ℕ) (st : TState β)
    (hP : ∀ x ∈ st.trace, x.2.2 = mF x.2.1 (gI x.1)
      + (if args.fl_algorithm = "FedProx"
         then fedProxReg args.fedprox_mu x.2.1 gm else 0)) :
    ∀ x ∈ (trainBatches args gI mF oS gm l k st).trace, x.2.2 = mF x.2.1 (gI x.1)
      + (if args.fl_algorithm = "FedProx"
         then fedProxReg args.fedprox_mu x.2.1 gm else 0) := by
  induction l generalizing k st with
  | nil => simpa [trainBatches] using hP
  | cons b rest ih =>
    rw [trainBatches]
    apply ih
    rw [trainBatchStep_trace]
    intro x hx
    rcases List.mem_append.mp hx with h | h
    · exact hP x h
    · rw [List.mem_singleton] at h
      subst h
      rfl

/-- The per-batch loss relation is an invariant of the epoch loop. -/
theorem trainEpochs_trace {β : Type} (args : Args) (gI : β → Inputs)
    (mF : Model → Inputs → ℚ) (oS : Model → Model) (gm : Model) (dl : List β)
    (n : ℕ) (st : TState β)
    (hP : ∀ x ∈ st.trace, x.2.2 = mF x.2.1 (gI x.1)
      + (if args.fl_algorithm = "FedProx"
         then fedProxReg args.fedprox_mu x.2.1 gm else 0)) :
    ∀ x ∈ (trainEpochs args gI mF oS gm dl n st).trace, x.2.2 = mF x.2.1 (gI x.1)
      + (if args.fl_algorithm = "FedProx"
         then fedProxReg args.fedprox_mu x.2.1 gm else 0) := by
  induction n generalizing st with
  | zero => simpa [trainEpochs] using hP
  | succ n ih =>
    rw [trainEpochs]
    exact ih _ (trainBatches_trace args gI mF oS gm dl 0 st hP)

/-- The configuration component of build_optimizer only rewrites the
warmup-step field. -/
theorem build_optimizer_args (args : Args) (model : Model) (t : ℕ) :
    (build_optimizer args model t).1
      = { args with warmup_steps :=
            if args.warmup_steps = 0
            then Int.ceil ((t : ℚ) * args.warmup_ratio)
            else args.warmup_steps } := rfl

/-- Inversion of a successful train_model call: the partition succeeded,
the accumulation count is nonzero, the core run took at least one step
and the result is the core run. -/
theorem trainModel_ok_inv {β : Type} {args : Args} {model : Model} {dl : List β}
    {gI : β → Inputs} {mF : Model → Inputs → ℚ} {oS : Model → Model}
    {r : TrainResult β}
    (h : trainModel args model dl gI mF oS = Except.ok r) :
    ∃ ogp cl a2, optimizerGroupedParameters args model = Except.ok (ogp, cl, a2)
      ∧ a2.gradient_accumulation_steps ≠ 0
      ∧ r = trainModelRun ogp a2 model dl gI mF oS := by
  unfold trainModel at h
  cases hog : optimizerGroupedParameters args model with
  | error e =>
    rw [hog] at h
    cases h
  | ok t =>
    obtain ⟨ogp, cl, a2⟩ := t
    rw [hog] at h
    by_cases hacc : a2.gradient_accumulation_steps = 0
    · simp [hacc] at h
    · by_cases hst : (trainModelRun ogp a2 model dl gI mF oS).global_step = 0
      · simp [hacc, hst] at h
      · simp only [hacc, hst, if_false, if_neg, ite_false] at h
        refine ⟨ogp, cl, a2, rfl, hacc, ?_⟩
        cases h
        rfl

/-- A successful pop returns the looked-up value and the dict without the
key. -/
theorem GDict.pop_eq_some {g : GDict} {k : String} {v : GVal} {d : GDict}
    (h : g.pop k = some (v, d)) :
    g.lookup k = some v ∧ d = g.filter (fun kv => kv.1 != k) := by
  unfold GDict.pop at h
  cases hl : g.lookup k with
  | none => rw [hl] at h; cases h
  | some w =>
    rw [hl] at h
    simp only [Option.some.injEq, Prod.mk.injEq] at h
    exact ⟨by rw [h.1], h.2.symm⟩

/-- The custom-group loop leaves each stored group dict without its
params key. -/
theorem customGroupsPhase_dicts (model : Model) (specs : List GDict) :
    ∀ (cl : List String) {gs : List ParamGroup} {cl2 : List String} {ds : List GDict},
      customGroupsPhase model specs cl = Except.ok (gs, cl2, ds) →
      ds = specs.map (fun g => g.filter (fun kv => kv.1 != "params")) := by
  induction specs with
  | nil =>
    intro cl gs cl2 ds h
    simp [customGroupsPhase] at h
    simp [h.2.2]
  | cons g rest ih =>
    intro cl gs cl2 ds h
    rw [customGroupsPhase] at h
    split at h
    · cases h
    · rename_i ps gRest hpop
      split at h
      · cases h
      · rename_i gs2 cl3 ds2 hrec
        simp only [Except.ok.injEq, Prod.mk.injEq] at h
        rw [← h.2.2, (GDict.pop_eq_some hpop).2, ih _ hrec, List.map_cons]
    · cases h

/-- The layer-group loop leaves each stored group dict without its layer
key. -/
theorem layerGroupsPhase_dicts (model : Model) (specs : List GDict) :
    ∀ (cl : List String) {gs : List ParamGroup} {cl2 : List String} {ds : List GDict},
      layerGroupsPhase model specs cl = Except.ok (gs, cl2, ds) →
      ds = specs.map (fun g => g.filter (fun kv => kv.1 != "layer")) := by
  induction specs with
  | nil =>
    intro cl gs cl2 ds h
    simp [layerGroupsPhase] at h
    simp [h.2.2]
  | cons g rest ih =>
    intro cl gs cl2 ds h
    rw [layerGroupsPhase] at h
    split at h
    · cases h
    · rename_i layer_number gRest hpop
      simp only [] at h
      split at h
      · cases h
      · rename_i gs2 cl3 ds2 hrec
        simp only [Except.ok.injEq, Prod.mk.injEq] at h
        rw [← h.2.2, (GDict.pop_eq_some hpop).2, ih _ hrec, List.map_cons]
    · cases h

/-- A successful partition returns the configuration unchanged except
that every custom group dict lost its params key and every layer group
dict its layer key. -/
theorem optimizerGroupedParameters_args {args : Args} {model : Model}
    {gs : List ParamGroup} {cl : List String} {a2 : Args}
    (h : optimizerGroupedParameters args model = Except.ok (gs, cl, a2)) :
    a2 = { args with
      custom_parameter_groups := args.custom_parameter_groups.map
        (fun g => g.filter (fun kv => kv.1 != "params")),
      custom_layer_parameters := args.custom_layer_parameters.map
        (fun g => g.filter (fun kv => kv.1 != "layer")) } := by
  unfold optimizerGroupedParameters at h
  split at h
  · cases h
  · rename_i gA clA dA hA
    split at h
    · cases h
    · rename_i gB clB dB hB
      simp only [Except.ok.injEq, Prod.mk.injEq] at h
      rw [← h.2.2, customGroupsPhase_dicts model _ _ hA, layerGroupsPhase_dicts model _ _ hB]

/-- The core run takes epochs times len(train_dl) / accumulation
optimizer steps. -/
theorem trainModelRun_global_step {β : Type} (ogp : List ParamGroup) (args : Args)
    (model : Model) (dl : List β) (gI : β → Inputs) (mF : Model → Inputs → ℚ)
    (oS : Model → Model) :
    (trainModelRun ogp args model dl gI mF oS).global_step
      = args.epochs * (dl.length / args.gradient_accumulation_steps) := by
  simp [trainModelRun, trainEpochs_global_step, build_optimizer_args]

/-- Every trace record of the core run satisfies the per-batch loss
relation against the initial model snapshot. -/
theorem trainModelRun_trace {β : Type} (ogp : List ParamGroup) (args : Args)
    (model : Model) (dl : List β) (gI : β → Inputs) (mF : Model → Inputs → ℚ)
    (oS : Model → Model) :
    ∀ x ∈ (trainModelRun ogp args model dl gI mF oS).trace,
      x.2.2 = mF x.2.1 (gI x.1)
        + (if args.fl_algorithm = "FedProx"
           then fedProxReg args.fedprox_mu x.2.1 model else 0) := by
  intro x hx
  simp only [trainModelRun] at hx
  have h := trainEpochs_trace
    ((build_optimizer args model
        (dl.length / args.gradient_accumulation_steps * args.epochs)).1)
    gI mF oS model dl
    ((build_optimizer args model
        (dl.length / args.gradient_accumulation_steps * args.epochs)).1.epochs)
    { model := model, global_step := 0, tr_loss := 0, trace := [] }
    (by intro y hy; cases hy) x hx
  rw [build_optimizer_args] at h
  exact h

/-- The core run returns the configuration with only the warmup-step
field rewritten. -/
theorem trainModelRun_args {β : Type} (ogp : List ParamGroup) (args : Args)
    (model : Model) (dl : List β) (gI : β → Inputs) (mF : Model → Inputs → ℚ)
    (oS : Model → Model) :
    (trainModelRun ogp args model dl gI mF oS).args
      = { args with warmup_steps :=
            if args.warmup_steps = 0
            then Int.ceil (((dl.length / args.gradient_accumulation_steps
                              * args.epochs : ℕ) : ℚ) * args.warmup_ratio)
            else args.warmup_steps } := by
  simp [trainModelRun, build_optimizer_args]

/-- C3 (amended): a successful train_model run returns global_step equal
to epochs times floor(batches_per_epoch / accumulation_steps), because
the enumeration index resets every epoch; for accumulation_steps 1 this
is the total batch count epochs times batches_per_epoch. -/
theorem trainModel_global_step {β : Type} (args : Args) (model : Model) (dl : List β)
    (gI : β → Inputs) (mF : Model → Inputs → ℚ) (oS : Model → Model)
    (r : TrainResult β) (h : trainModel args model dl gI mF oS = Except.ok r) :
    r.global_step = args.epochs * (dl.length / args.gradient_accumulation_steps)
    ∧ (args.gradient_accumulation_steps = 1 → r.global_step = args.epochs * dl.length) := by
  obtain ⟨ogp, cl, a2, hog, hacc, hr⟩ := trainModel_ok_inv h
  have ha2 := optimizerGroupedParameters_args hog
  have h1 : a2.epochs = args.epochs := by rw [ha2]
  have h2 : a2.gradient_accumulation_steps = args.gradient_accumulation_steps := by
    rw [ha2]
  subst hr
  rw [trainModelRun_global_step, h1, h2]
  exact ⟨rfl, fun hone => by rw [hone, Nat.div_one]⟩

/-- Witness for C3 at two epochs over three batches with accumulation 1:
six optimizer steps. -/
theorem trainModel_global_step_witness :
    trainModel cArgsEp2 cEmptyModel [(), (), ()] cGetInputs (fun _ _ => 1) id
      = Except.ok cR3w
    ∧ cR3w.global_step
        = cArgsEp2.epochs
            * (([(), (), ()] : List Unit).length / cArgsEp2.gradient_accumulation_steps) := by
  have h1 : trainModel cArgsEp2 cEmptyModel [(), (), ()] cGetInputs (fun _ _ => 1) id
      = Except.ok cR3w := by
    norm_num [trainModel, trainModelRun, optimizerGroupedParameters, customGroupsPhase,
      layerGroupsPhase, catchAllGroups, build_optimizer, trainEpochs, trainBatches,
      trainBatchStep, fedProxReg, normSq, tensorSub, Model.parameters, cArgsEp2,
      cEmptyModel, cGetInputs, cInputs0, baseArgs, anyNoDecay, no_decay, pyIn, cR3w]
  exact ⟨h1, (trainModel_global_step cArgsEp2 cEmptyModel [(), (), ()] cGetInputs
    (fun _ _ => 1) id cR3w h1).1⟩

/-- C3 counterexample: two epochs over three batches with accumulation 2
return global_step 2, while floor of total batches over accumulation is
floor(6 / 2) = 3, so the step count does not equal
floor(total_batches_processed / accumulation_steps). -/
theorem trainModel_global_step_cex :
    (trainModel cArgsAcc2 cEmptyModel [(), (), ()] cGetInputs (fun _ _ => 1) id).map
        (fun r => r.global_step) = Except.ok 2
    ∧ ((2 * 3) / 2 : ℕ) = 3
    ∧ (2 : ℕ) ≠ 3 := by
  refine ⟨by decide, by decide, by decide⟩

/-- C6: every batch loss recorded by train_model equals the black-box
forward loss plus, exactly when the federated algorithm tag is FedProx,
the proximal term (mu / 2) times the squared distance between the model
at forward time and the snapshot taken once at the start of train_model
(the initial model, never modified); for any other tag nothing is
added. -/
theorem trainModel_fedprox {β : Type} (args : Args) (model : Model) (dl : List β)
    (gI : β → Inputs) (mF : Model → Inputs → ℚ) (oS : Model → Model)
    (r : TrainResult β) (h : trainModel args model dl gI mF oS = Except.ok r) :
    ∀ x ∈ r.trace, x.2.2 = mF x.2.1 (gI x.1)
      + (if args.fl_algorithm = "FedProx"
         then fedProxReg args.fedprox_mu x.2.1 model else 0) := by
  obtain ⟨ogp, cl, a2, hog, hacc, hr⟩ := trainModel_ok_inv h
  have ha2 := optimizerGroupedParameters_args hog
  have h1 : a2.fl_algorithm = args.fl_algorithm := by rw [ha2]
  have h2 : a2.fedprox_mu = args.fedprox_mu := by rw [ha2]
  subst hr
  intro x hx
  have h3 := trainModelRun_trace ogp a2 model dl gI mF oS x hx
  rw [h1, h2] at h3
  exact h3

/-- Witness for C6: in the FedProx run with mu 2, the second batch sees
the stepped model at distance 1 from the snapshot and its loss is
5 + (2 / 2) * 1 = 6. -/
theorem trainModel_fedprox_witness :
    trainModel cArgsProx cModelW3 [(), ()] cGetInputs (fun _ _ => 5) cOptStep
      = Except.ok cR6
    ∧ ((), Model.mk [("w", [4])], (6 : ℚ)) ∈ cR6.trace
    ∧ (6 : ℚ) = 5 + (if cArgsProx.fl_algorithm = "FedProx"
        then fedProxReg cArgsProx.fedprox_mu (Model.mk [("w", [4])]) cModelW3 else 0) := by
  have h1 : trainModel cArgsProx cModelW3 [(), ()] cGetInputs (fun _ _ => 5) cOptStep
      = Except.ok cR6 := by
    norm_num [trainModel, trainModelRun, optimizerGroupedParameters, customGroupsPhase,
      layerGroupsPhase, catchAllGroups, build_optimizer, trainEpochs, trainBatches,
      trainBatchStep, fedProxReg, normSq, tensorSub, Model.parameters, cArgsProx,
      cModelW3, cOptStep, cGetInputs, cInputs0, baseArgs, anyNoDecay, no_decay, pyIn, cR6]
    decide
  have hmem : ((), Model.mk [("w", [4])], (6 : ℚ)) ∈ cR6.trace := by
    simp [cR6]
  refine ⟨h1, hmem, ?_⟩
  exact trainModel_fedprox cArgsProx cModelW3 [(), ()] cGetInputs (fun _ _ => 5) cOptStep
    cR6 h1 ((), Model.mk [("w", [4])], (6 : ℚ)) hmem

/-- C9 (amended): train_model leaves every configuration field unchanged
except warmup_steps, written once by build_optimizer, and the custom
group entries, each of which loses the key popped during the parameter
partition: custom_parameter_groups entries lose params and
custom_layer_parameters entries lose layer. -/
theorem trainModel_config_frame {β : Type} (args : Args) (model : Model) (dl : List β)
    (gI : β → Inputs) (mF : Model → Inputs → ℚ) (oS : Model → Model)
    (r : TrainResult β) (h : trainModel args model dl gI mF oS = Except.ok r) :
    r.args = { args with
      warmup_steps :=
        if args.warmup_steps = 0
        then Int.ceil (((dl.length / args.gradient_accumulation_steps
                          * args.epochs : ℕ) : ℚ) * args.warmup_ratio)
        else args.warmup_steps,
      custom_parameter_groups := args.custom_parameter_groups.map
        (fun g => g.filter (fun kv => kv.1 != "params")),
      custom_layer_parameters := args.custom_layer_parameters.map
        (fun g => g.filter (fun kv => kv.1 != "layer")) } := by
  obtain ⟨ogp, cl, a2, hog, hacc, hr⟩ := trainModel_ok_inv h
  have ha2 := optimizerGroupedParameters_args hog
  subst hr
  rw [trainModelRun_args, ha2]

/-- Witness for C9: the run whose configuration holds one custom group
with params and weight_decay keys returns the configuration with the
params key removed and everything else unchanged. -/
theorem trainModel_config_frame_witness :
    trainModel cArgsCpg cModelW [()] cGetInputs (fun _ _ => 1) id = Except.ok cR9
    ∧ cR9.args = { cArgsCpg with
        warmup_steps :=
          if cArgsCpg.warmup_steps = 0
          then Int.ceil (((([()] : List Unit).length
                            / cArgsCpg.gradient_accumulation_steps
                            * cArgsCpg.epochs : ℕ) : ℚ) * cArgsCpg.warmup_ratio)
          else cArgsCpg.warmup_steps,
        custom_parameter_groups := cArgsCpg.custom_parameter_groups.map
          (fun g => g.filter (fun kv => kv.1 != "params")),
        custom_layer_parameters := cArgsCpg.custom_layer_parameters.map
          (fun g => g.filter (fun kv => kv.1 != "layer")) } := by
  have h1 : trainModel cArgsCpg cModelW [()] cGetInputs (fun _ _ => 1) id
      = Except.ok cR9 := by
    norm_num [trainModel, trainModelRun, optimizerGroupedParameters, customGroupsPhase,
      layerGroupsPhase, catchAllGroups, build_optimizer, trainEpochs, trainBatches,
      trainBatchStep, fedProxReg, normSq, tensorSub, Model.parameters, cArgsCpg,
      cModelW, cGetInputs, cInputs0, baseArgs, anyNoDecay, no_decay, pyIn, cR9,
      GDict.pop, GDict.set]
    decide
  exact ⟨h1, trainModel_config_frame cArgsCpg cModelW [()] cGetInputs (fun _ _ => 1)
    id cR9 h1⟩

/-- C9 counterexample: after train_model, the stored custom parameter
group entry has lost its params key, so the custom-parameter-group
entries of the configuration are not left unchanged. -/
theorem trainModel_mutates_custom_groups :
    (trainModel cArgsCpg cModelW [()] cGetInputs (fun _ _ => 1) id).map
        (fun r => r.args.custom_parameter_groups)
      = Except.ok [[("weight_decay", GVal.num 1)]]
    ∧ cArgsCpg.custom_parameter_groups
        = [[("params", GVal.strs ["w"]), ("weight_decay", GVal.num 1)]]
    ∧ ([[("weight_decay", GVal.num 1)]] : List GDict)
        ≠ [[("params", GVal.strs ["w"]), ("weight_decay", GVal.num 1)]] := by
  refine ⟨by decide, by decide, by decide⟩

/-- In a duplicate-free list every member is counted exactly once. -/
theorem count_eq_one_of_mem_nodup {α : Type} [BEq α] [LawfulBEq α] {l : List α} {a : α}
    (hd : l.Nodup) (hm : a ∈ l) : l.count a = 1 := by
  induction l with
  | nil => cases hm
  | cons b bs ih =>
    rw [List.count_cons]
    rcases List.mem_cons.mp hm with rfl | hm2
    · have hb : a ∉ bs := (List.nodup_cons.mp hd).1
      have hz : bs.count a = 0 := List.count_eq_zero.mpr hb
      simp [hz]
    · have hb : ¬ b == a := by
        intro h
        exact (List.nodup_cons.mp hd).1 ((eq_of_beq h) ▸ hm2)
      rw [ih (List.nodup_cons.mp hd).2 hm2]
      simp [hb]

/-- Counting a parameter among the second components of a filtered
named-parameter list: with pairwise distinct tensors the count is one
exactly when the pair of the given parameter passes the filter. -/
theorem count_filter_map_snd {nps : List (String × Tensor)}
    (hsnd : (nps.map Prod.snd).Nodup) {n : String} {p : Tensor}
    (hmem : (n, p) ∈ nps) (f : String × Tensor → Bool) :
    ((nps.filter f).map Prod.snd).count p = if f (n, p) then 1 else 0 := by
  by_cases hf : f (n, p)
  · rw [if_pos hf]
    refine count_eq_one_of_mem_nodup ?_ ?_
    · exact List.Nodup.sublist (List.Sublist.map Prod.snd (List.filter_sublist nps)) hsnd
    · exact List.mem_map.mpr ⟨(n, p), List.mem_filter.mpr ⟨hmem, hf⟩, rfl⟩
  · rw [if_neg hf, List.count_eq_zero]
    intro hmem2
    obtain ⟨x, hx, hxp⟩ := List.mem_map.mp hmem2
    have hxnps := (List.mem_filter.mp hx).1
    have hxf := (List.mem_filter.mp hx).2
    have hxe : x = (n, p) := List.inj_on_of_nodup_map hsnd hxnps hmem (by rw [hxp])
    rw [hxe] at hxf
    exact hf hxf

/-- The group count distributes over group-list concatenation. -/
theorem groupCount_append (p : Tensor) (g1 g2 : List ParamGroup) :
    groupCount p (g1 ++ g2) = groupCount p g1 + groupCount p g2 := by
  simp [groupCount]

/-- The group count of a cons splits off the head group. -/
theorem groupCount_cons (p : Tensor) (g : ParamGroup) (gs : List ParamGroup) :
    groupCount p (g :: gs) = g.params.count p + groupCount p gs := by
  simp [groupCount]

/-- A well-formed custom group spec looks up to its params name list. -/
theorem paramNamesOf_isSome {g : GDict} (h : (paramNamesOf g).isSome = true) :
    g.lookup "params" = some (GVal.strs ((paramNamesOf g).getD [])) := by
  unfold paramNamesOf at *
  cases hl : g.lookup "params" with
  | none => rw [hl] at h; simp at h
  | some v =>
    cases v with
    | num q => rw [hl] at h; simp at h
    | nat k => rw [hl] at h; simp at h
    | strs l => simp [hl]

/-- A well-formed layer group spec looks up to its layer index. -/
theorem layerIdxOf_isSome {g : GDict} (h : (layerIdxOf g).isSome = true) :
    g.lookup "layer" = some (GVal.nat ((layerIdxOf g).getD 0)) := by
  unfold layerIdxOf at *
  cases hl : g.lookup "layer" with
  | none => rw [hl] at h; simp at h
  | some v =>
    cases v with
    | num q => rw [hl] at h; simp at h
    | strs l => rw [hl] at h; simp at h
    | nat k => simp [hl]

/-- The custom-group loop succeeds when every spec carries a params name
list. -/
theorem customGroupsPhase_ok (model : Model) (specs : List GDict) :
    ∀ (cl : List String), (∀ g ∈ specs, (paramNamesOf g).isSome = true) →
      ∃ gs cl2 ds, customGroupsPhase model specs cl = Except.ok (gs, cl2, ds) := by
  induction specs with
  | nil => exact fun cl _ => ⟨[], cl, [], rfl⟩
  | cons g rest ih =>
    intro cl hwf
    have hps := paramNamesOf_isSome (hwf g (List.mem_cons_self g rest))
    have hpop : g.pop "params"
        = some (GVal.strs ((paramNamesOf g).getD []),
                g.filter (fun kv => kv.1 != "params")) := by
      unfold GDict.pop
      rw [hps]
    obtain ⟨gs, cl2, ds, hrec⟩ :=
      ih (cl ++ (paramNamesOf g).getD []) (fun g' hg' => hwf g' (List.mem_cons_of_mem _ hg'))
    exact ⟨{ spec := g.filter (fun kv => kv.1 != "params"),
             params := (model.named_parameters.filter
               (fun np => ((paramNamesOf g).getD []).contains np.1)).map Prod.snd } :: gs,
           cl2, g.filter (fun kv => kv.1 != "params") :: ds,
           by rw [customGroupsPhase, hpop]; simp [hrec]⟩

/-- The custom-group loop assigns the given parameter to one group per
spec whose params list names it. -/
theorem customGroupsPhase_count (model : Model)
    (hsnd : (model.named_parameters.map Prod.snd).Nodup)
    {n : String} {p : Tensor} (hmem : (n, p) ∈ model.named_parameters)
    (specs : List GDict) :
    ∀ (cl : List String) {gs : List ParamGroup} {cl2 : List String} {ds : List GDict},
      customGroupsPhase model specs cl = Except.ok (gs, cl2, ds) →
      groupCount p gs
        = specs.countP (fun g => ((paramNamesOf g).getD []).contains n) := by
  induction specs with
  | nil =>
    intro cl gs cl2 ds h
    simp [customGroupsPhase] at h
    obtain ⟨h1, h2, h3⟩ := h
    subst h1
    simp [groupCount]
  | cons g rest ih =>
    intro cl gs cl2 ds h
    rw [customGroupsPhase] at h
    split at h
    · cases h
    · rename_i ps gRest hpop
      split at h
      · cases h
      · rename_i gs2 cl3 ds2 hrec
        simp only [Except.ok.injEq, Prod.mk.injEq] at h
        have hpn : paramNamesOf g = some ps := by
          unfold paramNamesOf
          rw [(GDict.pop_eq_some hpop).1]
        rw [← h.1, groupCount_cons, ih _ hrec, List.countP_cons,
          count_filter_map_snd hsnd hmem (fun np => ps.contains np.1)]
        simp [hpn, Nat.add_comm]
    · cases h

/-- After the custom-group loop the claimed set holds exactly the initial
names and every name listed by some spec. -/
theorem customGroupsPhase_claimed (model : Model) (specs : List GDict) :
    ∀ (cl : List String) {gs : List ParamGroup} {cl2 : List String} {ds : List GDict},
      customGroupsPhase model specs cl = Except.ok (gs, cl2, ds) →
      ∀ m : String, m ∈ cl2 ↔ m ∈ cl ∨ ∃ g ∈ specs, m ∈ (paramNamesOf g).getD [] := by
  induction specs with
  | nil =>
    intro cl gs cl2 ds h m
    simp [customGroupsPhase] at h
    rw [← h.2.1]
    simp
  | cons g rest ih =>
    intro cl gs cl2 ds h m
    rw [customGroupsPhase] at h
    split at h
    · cases h
    · rename_i ps gRest hpop
      split at h
      · cases h
      · rename_i gs2 cl3 ds2 hrec
        simp only [Except.ok.injEq, Prod.mk.injEq] at h
        have hpn : paramNamesOf g = some ps := by
          unfold paramNamesOf
          rw [(GDict.pop_eq_some hpop).1]
        rw [← h.2.1, ih _ hrec m, List.exists_mem_cons_iff]
        simp [hpn, List.mem_append]
        tauto
    · cases h

/-- Closed form of the single-layer scan: with pairwise distinct
parameter names the claimed-set threading is equivalent to static
filters over named_parameters. -/
theorem splitLayerParams_eq_filter (layer : String) (nps : List (String × Tensor)) :
    ∀ (cl : List String), (nps.map Prod.fst).Nodup →
      splitLayerParams layer cl nps
        = ((nps.filter (fun np => cl.contains np.1 = false ∧ pyIn layer np.1 = true
              ∧ anyNoDecay np.1 = false)).map Prod.snd,
           (nps.filter (fun np => cl.contains np.1 = false ∧ pyIn layer np.1 = true
              ∧ anyNoDecay np.1 = true)).map Prod.snd,
           cl ++ (nps.filter (fun np => cl.contains np.1 = false
              ∧ pyIn layer np.1 = true)).map Prod.fst) := by
  induction nps with
  | nil =>
    intro cl _
    simp [splitLayerParams]
  | cons np rest ih =>
    obtain ⟨n0, p0⟩ := np
    intro cl hfst
    rw [List.map_cons, List.nodup_cons] at hfst
    obtain ⟨hn0, hrest⟩ := hfst
    have hne : ∀ q ∈ rest, (q : String × Tensor).1 ≠ n0 :=
      fun q hq he => hn0 (he ▸ List.mem_map.mpr ⟨q, hq, rfl⟩)
    have hcont : ∀ x : String, x ≠ n0 → ((cl ++ [n0]).contains x) = cl.contains x := by
      intro x hx
      simp [List.elem_iff, List.mem_append, hx]
    rw [splitLayerParams]
    by_cases hc : cl.contains n0 = false ∧ pyIn layer n0 = true
    · rw [if_pos hc, ih (cl ++ [n0]) hrest]
      have hf1 : rest.filter (fun np => (cl ++ [n0]).contains np.1 = false
            ∧ pyIn layer np.1 = true ∧ anyNoDecay np.1 = false)
          = rest.filter (fun np => cl.contains np.1 = false
            ∧ pyIn layer np.1 = true ∧ anyNoDecay np.1 = false) :=
        List.filter_congr (fun q hq => by rw [hcont q.1 (hne q hq)])
      have hf2 : rest.filter (fun np => (cl ++ [n0]).contains np.1 = false
            ∧ pyIn layer np.1 = true ∧ anyNoDecay np.1 = true)
          = rest.filter (fun np => cl.contains np.1 = false
            ∧ pyIn layer np.1 = true ∧ anyNoDecay np.1 = true) :=
        List.filter_congr (fun q hq => by rw [hcont q.1 (hne q hq)])
      have hf3 : rest.filter (fun np => (cl ++ [n0]).contains np.1 = false
            ∧ pyIn layer np.1 = true)
          = rest.filter (fun np => cl.contains np.1 = false
            ∧ pyIn layer np.1 = true) :=
        List.filter_congr (fun q hq => by rw [hcont q.1 (hne q hq)])
      rw [hf1, hf2, hf3]
      have hn0cl : n0 ∉ cl := by simpa using hc.1
      by_cases hnd : anyNoDecay n0 = true
      · rw [if_pos hnd]
        simp [List.filter_cons, hc.2, hnd, hn0cl]
      · rw [if_neg hnd]
        simp [List.filter_cons, hc.2, hnd, hn0cl]
    · rw [if_neg hc, ih cl hrest]
      rcases not_and_or.mp hc with hc1 | hc2
      · have hmem0 : n0 ∈ cl := by
          cases hb : cl.contains n0 with
          | false => exact absurd hb hc1
          | true => simpa using hb
        simp [List.filter_cons, hmem0]
      · have hpy : pyIn layer n0 = false := by
          cases hb : pyIn layer n0 with
          | false => rfl
          | true => exact absurd hb hc2
        simp [List.filter_cons, hpy]

/-- Membership of a name in a filtered projection of named parameters
reduces to the filter condition at its own pair. -/
theorem mem_filter_map_fst {nps : List (String × Tensor)}
    (hfst : (nps.map Prod.fst).Nodup) {n : String} {p : Tensor}
    (hmem : (n, p) ∈ nps) (f : String × Tensor → Bool) :
    n ∈ (nps.filter f).map Prod.fst ↔ f (n, p) = true := by
  constructor
  · intro hmem2
    obtain ⟨q, hq, hq1⟩ := List.mem_map.mp hmem2
    have hqe : q = (n, p) :=
      List.inj_on_of_nodup_map hfst (List.mem_filter.mp hq).1 hmem hq1
    have := (List.mem_filter.mp hq).2
    rwa [hqe] at this
  · intro hf
    exact List.mem_map.mpr ⟨(n, p), List.mem_filter.mpr ⟨hmem, hf⟩, rfl⟩

/-- The layer-group loop succeeds when every spec carries an integer
layer index. -/
theorem layerGroupsPhase_ok (model : Model) (specs : List GDict) :
    ∀ (cl : List String), (∀ g ∈ specs, (layerIdxOf g).isSome = true) →
      ∃ t, layerGroupsPhase model specs cl = Except.ok t := by
  induction specs with
  | nil => exact fun cl _ => ⟨([], cl, []), rfl⟩
  | cons g rest ih =>
    intro cl hwf
    have hli := layerIdxOf_isSome (hwf g (List.mem_cons_self g rest))
    have hpop : g.pop "layer"
        = some (GVal.nat ((layerIdxOf g).getD 0),
                g.filter (fun kv => kv.1 != "layer")) := by
      unfold GDict.pop
      rw [hli]
    obtain ⟨t, hrec⟩ := ih
      (splitLayerParams ("layer." ++ toString ((layerIdxOf g).getD 0) ++ ".") cl
        model.named_parameters).2.2
      (fun g' hg' => hwf g' (List.mem_cons_of_mem _ hg'))
    obtain ⟨gs2, cl3, ds2⟩ := t
    refine ⟨({ spec := g.filter (fun kv => kv.1 != "layer"),
               params := (splitLayerParams
                 ("layer." ++ toString ((layerIdxOf g).getD 0) ++ ".") cl
                 model.named_parameters).1 }
             :: { spec := GDict.set (g.filter (fun kv => kv.1 != "layer")) "weight_decay"
                    (GVal.num 0),
                  params := (splitLayerParams
                    ("layer." ++ toString ((layerIdxOf g).getD 0) ++ ".") cl
                    model.named_parameters).2.1 }
             :: gs2, cl3,
            g.filter (fun kv => kv.1 != "layer") :: ds2), ?_⟩
    rw [layerGroupsPhase, hpop]
    simp [hrec]

/-- Count and claimed-set characterization of the layer-group loop for a
fixed named parameter: its tensor lands in exactly one layer group when
it is unclaimed and some layer marker occurs in its name, and its name
is claimed afterwards exactly in that case. -/
theorem layerGroupsPhase_count_claimed (model : Model)
    (hfst : (model.named_parameters.map Prod.fst).Nodup)
    (hsnd : (model.named_parameters.map Prod.snd).Nodup)
    {n : String} {p : Tensor} (hmem : (n, p) ∈ model.named_parameters)
    (specs : List GDict) :
    ∀ (cl : List String) {gs : List ParamGroup} {cl2 : List String} {ds : List GDict},
      layerGroupsPhase model specs cl = Except.ok (gs, cl2, ds) →
      (groupCount p gs
        = if n ∉ cl ∧ ∃ g ∈ specs, pyIn (layerMarkerOf g) n = true then 1 else 0)
      ∧ (n ∈ cl2 ↔ n ∈ cl ∨ ∃ g ∈ specs, pyIn (layerMarkerOf g) n = true) := by
  induction specs with
  | nil =>
    intro cl gs cl2 ds h
    simp [layerGroupsPhase] at h
    obtain ⟨h1, h2, h3⟩ := h
    subst h1
    constructor
    · simp [groupCount]
    · rw [← h2]
      simp
  | cons g rest ih =>
    intro cl gs cl2 ds h
    rw [layerGroupsPhase] at h
    split at h
    · cases h
    · rename_i ln gRest hpop
      simp only [] at h
      split at h
      · cases h
      · rename_i gs2 cl3 ds2 hrec
        simp only [Except.ok.injEq, Prod.mk.injEq] at h
        obtain ⟨hgs, hcl23, hds⟩ := h
        subst hcl23
        have hli : layerIdxOf g = some ln := by
          unfold layerIdxOf
          rw [(GDict.pop_eq_some hpop).1]
        have hmk : layerMarkerOf g = "layer." ++ toString ln ++ "." := by
          unfold layerMarkerOf
          simp [hli]
        have hsplit := splitLayerParams_eq_filter ("layer." ++ toString ln ++ ".")
          model.named_parameters cl hfst
        have hs1 : (splitLayerParams ("layer." ++ toString ln ++ ".") cl
              model.named_parameters).1
            = (model.named_parameters.filter
                (fun np => cl.contains np.1 = false
                  ∧ pyIn ("layer." ++ toString ln ++ ".") np.1 = true
                  ∧ anyNoDecay np.1 = false)).map Prod.snd := by
          rw [hsplit]
        have hs2 : (splitLayerParams ("layer." ++ toString ln ++ ".") cl
              model.named_parameters).2.1
            = (model.named_parameters.filter
                (fun np => cl.contains np.1 = false
                  ∧ pyIn ("layer." ++ toString ln ++ ".") np.1 = true
                  ∧ anyNoDecay np.1 = true)).map Prod.snd := by
          rw [hsplit]
        have hs3 : (splitLayerParams ("layer." ++ toString ln ++ ".") cl
              model.named_parameters).2.2
            = cl ++ (model.named_parameters.filter
                (fun np => cl.contains np.1 = false
                  ∧ pyIn ("layer." ++ toString ln ++ ".") np.1 = true)).map Prod.fst := by
          rw [hsplit]
        have hih := ih _ hrec
        rw [hs3] at hih
        have hclmem : n ∈ cl ++ (model.named_parameters.filter
              (fun np => cl.contains np.1 = false
                ∧ pyIn ("layer." ++ toString ln ++ ".") np.1 = true)).map Prod.fst
            ↔ n ∈ cl ∨ (n ∉ cl ∧ pyIn ("layer." ++ toString ln ++ ".") n = true) := by
          rw [List.mem_append,
            mem_filter_map_fst hfst hmem (fun np => cl.contains np.1 = false
              ∧ pyIn ("layer." ++ toString ln ++ ".") np.1 = true)]
          simp
        have hcd := count_filter_map_snd hsnd hmem
          (fun np => cl.contains np.1 = false
            ∧ pyIn ("layer." ++ toString ln ++ ".") np.1 = true
            ∧ anyNoDecay np.1 = false)
        have hcnd := count_filter_map_snd hsnd hmem
          (fun np => cl.contains np.1 = false
            ∧ pyIn ("layer." ++ toString ln ++ ".") np.1 = true
            ∧ anyNoDecay np.1 = true)
        simp only [hclmem] at hih
        constructor
        · rw [← hgs, groupCount_cons, groupCount_cons]
          simp only [hs1, hs2]
          rw [hcd, hcnd, hih.1]
          by_cases hcl : n ∈ cl
          · simp [hcl]
          · by_cases hpy : pyIn ("layer." ++ toString ln ++ ".") n = true
            · by_cases hnd : anyNoDecay n = true
              · simp [hcl, hpy, hnd, hmk, List.exists_mem_cons_iff]
              · simp [hcl, hpy, hnd, hmk, List.exists_mem_cons_iff]
            · simp [hcl, hpy, hmk, List.exists_mem_cons_iff]
        · rw [hih.2, List.exists_mem_cons_iff, hmk]
          tauto
    · cases h

/-- The catch-all groups take a parameter exactly when the custom phases
left it unclaimed, split between the decayed and the no-decay group. -/
theorem catchAllGroups_count (wd : ℚ) (model : Model)
    (hsnd : (model.named_parameters.map Prod.snd).Nodup)
    {n : String} {p : Tensor} (hmem : (n, p) ∈ model.named_parameters)
    (cl : List String) :
    groupCount p (catchAllGroups wd model cl) = if n ∉ cl then 1 else 0 := by
  unfold catchAllGroups
  rw [groupCount_cons, groupCount_cons]
  have h1 := count_filter_map_snd hsnd hmem
    (fun np => cl.contains np.1 = false ∧ anyNoDecay np.1 = false)
  have h2 := count_filter_map_snd hsnd hmem
    (fun np => cl.contains np.1 = false ∧ anyNoDecay np.1 = true)
  simp only []
  rw [h1, h2]
  by_cases hcl : n ∈ cl
  · simp [hcl, groupCount]
  · by_cases hnd : anyNoDecay n = true
    · simp [hcl, hnd, groupCount]
    · simp [hcl, hnd, groupCount]

/-- With pairwise disjoint params name lists, the number of custom specs
naming a given parameter is one when some spec names it and zero
otherwise. -/
theorem countP_names_of_pairwise_disj (n : String) (specs : List GDict)
    (hp : specs.Pairwise DisjNames) :
    specs.countP (fun g => ((paramNamesOf g).getD []).contains n)
      = if ∃ g ∈ specs, n ∈ (paramNamesOf g).getD [] then 1 else 0 := by
  induction specs with
  | nil => simp
  | cons g rest ih =>
    obtain ⟨hg, hrest⟩ := List.pairwise_cons.mp hp
    by_cases hn : n ∈ (paramNamesOf g).getD []
    · have h0 : rest.countP (fun g => ((paramNamesOf g).getD []).contains n) = 0 := by
        rw [List.countP_eq_zero]
        intro g' hg' hc
        exact (hg g' hg') n hn (by simpa using hc)
      rw [List.countP_cons, h0]
      simp [hn]
    · rw [List.countP_cons, ih hrest]
      simp [hn, List.exists_mem_cons_iff]

/-- C1 (amended): for a model whose parameter names and tensors are
pairwise distinct and a configuration with train_custom_parameters_only
false whose custom parameter groups carry pairwise disjoint params name
lists and whose custom layer groups carry integer layer indices, the
partition succeeds and every named model parameter lands in exactly one
constructed optimizer parameter group, the custom named groups claiming
first, then the layer groups, then the catch-all decay and no-decay
groups. -/
theorem groupedParameters_exactly_once (args : Args) (model : Model)
    (htcpo : args.train_custom_parameters_only = false)
    (hfst : (model.named_parameters.map Prod.fst).Nodup)
    (hsnd : (model.named_parameters.map Prod.snd).Nodup)
    (hwfA : ∀ g ∈ args.custom_parameter_groups, (paramNamesOf g).isSome = true)
    (hdisj : args.custom_parameter_groups.Pairwise DisjNames)
    (hwfB : ∀ g ∈ args.custom_layer_parameters, (layerIdxOf g).isSome = true) :
    (optimizerGroupedParameters args model).isOk = true
    ∧ ∀ np ∈ model.named_parameters, groupCount np.2 (groupsOf args model) = 1 := by
  obtain ⟨gA, clA, dA, hA⟩ := customGroupsPhase_ok model args.custom_parameter_groups [] hwfA
  obtain ⟨tB, hB⟩ := layerGroupsPhase_ok model args.custom_layer_parameters clA hwfB
  obtain ⟨gB, clB, dB⟩ := tB
  have hog : optimizerGroupedParameters args model
      = Except.ok (gA ++ gB ++ catchAllGroups args.weight_decay model clB, clB,
          { args with custom_parameter_groups := dA, custom_layer_parameters := dB }) := by
    simp [optimizerGroupedParameters, hA, hB, htcpo]
  constructor
  · rw [hog]
    rfl
  · intro np hnp
    obtain ⟨n, p⟩ := np
    have hgroups : groupsOf args model
        = gA ++ gB ++ catchAllGroups args.weight_decay model clB := by
      unfold groupsOf
      rw [hog]
    rw [hgroups, groupCount_append, groupCount_append]
    have hcountA := customGroupsPhase_count model hsnd hnp args.custom_parameter_groups [] hA
    have hclaimA := customGroupsPhase_claimed model args.custom_parameter_groups [] hA
    have hBcc := layerGroupsPhase_count_claimed model hfst hsnd hnp
      args.custom_layer_parameters clA hB
    have hcountC := catchAllGroups_count args.weight_decay model hsnd hnp clB
    rw [hcountA, hBcc.1, hcountC, countP_names_of_pairwise_disj n _ hdisj]
    have hclA : n ∈ clA ↔ ∃ g ∈ args.custom_parameter_groups, n ∈ (paramNamesOf g).getD [] := by
      rw [hclaimA n]
      simp
    have hclB : n ∈ clB ↔ (∃ g ∈ args.custom_parameter_groups, n ∈ (paramNamesOf g).getD [])
        ∨ ∃ g ∈ args.custom_layer_parameters, pyIn (layerMarkerOf g) n = true := by
      rw [hBcc.2, hclA]
    by_cases hA1 : ∃ g ∈ args.custom_parameter_groups, n ∈ (paramNamesOf g).getD []
    · have hmA : n ∈ clA := hclA.mpr hA1
      have hmB : n ∈ clB := hclB.mpr (Or.inl hA1)
      simp [hA1, hmA, hmB]
    · by_cases hB1 : ∃ g ∈ args.custom_layer_parameters, pyIn (layerMarkerOf g) n = true
      · have hnclA : n ∉ clA := fun hx => hA1 (hclA.mp hx)
        have hmB : n ∈ clB := hclB.mpr (Or.inr hB1)
        simp [hA1, hB1, hnclA, hmB]
      · have hnclA : n ∉ clA := fun hx => hA1 (hclA.mp hx)
        have hnclB : n ∉ clB := fun hx => by
          rcases hclB.mp hx with hcase | hcase
          · exact hA1 hcase
          · exact hB1 hcase
        simp [hA1, hB1, hnclA, hnclB]

/-- Witness for C1 at a four-parameter model with one custom named group
and one custom layer group: every parameter lands in exactly one
group. -/
theorem groupedParameters_exactly_once_witness :
    (optimizerGroupedParameters cArgsCustom cModelLayers).isOk = true
    ∧ ∀ np ∈ cModelLayers.named_parameters,
        groupCount np.2 (groupsOf cArgsCustom cModelLayers) = 1 :=
  groupedParameters_exactly_once cArgsCustom cModelLayers rfl (by decide) (by decide)
    (by decide) (by simp [List.pairwise_singleton, cArgsCustom]) (by decide)

/-- C1 counterexample: two custom parameter groups may both name the same
parameter, which then appears in two optimizer parameter groups, so
without disjointness the exactly-once property fails even with
train_custom_parameters_only false. -/
theorem groupedParameters_duplicate_cex :
    cArgsDup.train_custom_parameters_only = false
    ∧ ("w", ([1] : Tensor)) ∈ cModelW.named_parameters
    ∧ (optimizerGroupedParameters cArgsDup cModelW).map (fun r => groupCount [1] r.1)
        = Except.ok 2 := by
  refine ⟨rfl, by decide, by decide⟩
